import Mathlib

/-!
Verification of the Adam/AdaMax optimizer
(`src/mlpack/core/optimizers/adam/adam_impl.hpp`, `Adam::Optimize`).

Embedding conventions:
* Matrices (`arma::mat` of a fixed shape) are modelled as functions `ι → ℝ`
  over a fixed index type `ι`; all armadillo operations used by the source
  (`%`, `max`, `abs`, `sqrt`, scalar multiply, elementwise divide) are
  entrywise, so `ι` never needs any structure.
* Finite double arithmetic on the iterate and the moment buffers is
  idealized as real arithmetic.
* Objective values (the results of `function.Evaluate`, `overallObjective`,
  `lastObjective`, `DBL_MAX`) live in `D`, a scalar type with finite values
  (as rationals), the two infinities and NaN, with IEEE-style comparison
  (every comparison involving NaN is false) so the divergence check
  `std::isnan(x) || std::isinf(x)` and the tolerance check
  `std::abs(lastObjective - overallObjective) < tolerance` are modelled
  faithfully.  Finite-plus-finite never overflows to infinity in this
  model; non-finite aggregates arise from non-finite `Evaluate` results.
* The external random shuffles (`arma::shuffle`) are modelled by an
  oracle `orders : ℕ → ℕ → ℕ` giving the visitation order produced by the
  k-th shuffle call; `shuffleCount` tracks how many shuffles have happened.
-/

namespace MlpackAdam

/-- Scalar model for `double`-valued objective quantities: a finite value
(idealized as a rational), positive infinity, negative infinity, or NaN. -/
inductive D : Type where
  | fin : ℚ → D
  | pinf : D
  | ninf : D
  | nan : D
  deriving DecidableEq, Repr

namespace D

/-- `std::isnan`. -/
def isNan : D → Bool
  | nan => true
  | _ => false

/-- `std::isinf` (true for either infinity). -/
def isInf : D → Bool
  | pinf => true
  | ninf => true
  | _ => false

/-- IEEE-style addition (used by `overallObjective += ...`).  NaN
propagates; opposite infinities give NaN; finite sums are exact. -/
def add : D → D → D
  | nan, _ => nan
  | _, nan => nan
  | pinf, ninf => nan
  | ninf, pinf => nan
  | pinf, _ => pinf
  | _, pinf => pinf
  | ninf, _ => ninf
  | _, ninf => ninf
  | fin a, fin b => fin (a + b)

/-- IEEE-style subtraction (used by `lastObjective - overallObjective`). -/
def sub : D → D → D
  | nan, _ => nan
  | _, nan => nan
  | pinf, pinf => nan
  | ninf, ninf => nan
  | pinf, _ => pinf
  | _, pinf => ninf
  | ninf, _ => ninf
  | _, ninf => pinf
  | fin a, fin b => fin (a - b)

/-- `std::abs` on doubles. -/
def dabs : D → D
  | fin a => fin |a|
  | pinf => pinf
  | ninf => pinf
  | nan => nan

/-- IEEE-style `<`: any comparison involving NaN is false. -/
def dlt : D → D → Bool
  | nan, _ => false
  | _, nan => false
  | fin a, fin b => decide (a < b)
  | fin _, pinf => true
  | fin _, ninf => false
  | pinf, _ => false
  | ninf, ninf => false
  | ninf, _ => true

/-- `DBL_MAX`, the largest finite double, `(2^53 - 1) * 2^971`. -/
def dblMax : D := fin ((2 ^ 53 - 1) * 2 ^ 971)

end D

/-- A fixed-shape dense real matrix, indexed entrywise. -/
def Mat (ι : Type) : Type := ι → ℝ

/-- Hyperparameters of the optimizer, stored by the `Adam` constructor and
immutable during `Optimize`. -/
structure AdamParams where
  stepSize : ℝ
  beta1 : ℝ
  beta2 : ℝ
  eps : ℝ
  maxIterations : ℕ
  tolerance : ℚ
  shuffle : Bool
  adaMax : Bool

/-- The externally supplied decomposable objective
(`DecomposableFunctionType`): a term count, per-term evaluation producing a
double, and per-term gradient producing a matrix shaped like the iterate. -/
structure Objective (ι : Type) where
  numFunctions : ℕ
  evaluate : Mat ι → ℕ → D
  gradient : Mat ι → ℕ → Mat ι

/-- The numeric state mutated by one update step: the iterate, the first
moment `m`, and the second moment `v` (Adam) or weighted infinity norm `u`
(AdaMax).  The source declares both `u` and `v` and only ever touches the
one selected by `adaMax`; the unused field just carries its value. -/
structure AdamState (ι : Type) where
  iterate : Mat ι
  m : Mat ι
  v : Mat ι
  u : Mat ι

/-- `biasCorrection1 = 1.0 - std::pow(beta1, (double) i)` (line 143). -/
noncomputable def biasCorrection1 (beta1 : ℝ) (t : ℕ) : ℝ := 1 - beta1 ^ t

/-- `biasCorrection2 = 1.0 - std::pow(beta2, (double) i)` (line 144). -/
noncomputable def biasCorrection2 (beta2 : ℝ) (t : ℕ) : ℝ := 1 - beta2 ^ t

/-- One update step of the loop body (source lines 128-160), at global loop
counter `t` (the source's `i`), applied to the gradient just computed.
Mirrors the source statement by statement:
`m *= beta1; m += (1 - beta1) * gradient;` then either the AdaMax pair
`u *= beta2; u = max(u, abs(gradient));` with the `biasCorrection1 != 0`
guarded iterate update, or the Adam pair
`v *= beta2; v += (1 - beta2) * (gradient % gradient);` with the unguarded
iterate update. -/
noncomputable def adamUpdate {ι : Type} (P : AdamParams) (grad : Mat ι)
    (t : ℕ) (s : AdamState ι) : AdamState ι :=
  let m1 : Mat ι := fun j => P.beta1 * s.m j
  let m : Mat ι := fun j => m1 j + (1 - P.beta1) * grad j
  if P.adaMax then
    let u1 : Mat ι := fun j => P.beta2 * s.u j
    let u : Mat ι := fun j => max (u1 j) |grad j|
    let iterate : Mat ι :=
      if biasCorrection1 P.beta1 t ≠ 0 then
        fun j => s.iterate j -
          P.stepSize / biasCorrection1 P.beta1 t * m j / (u j + P.eps)
      else s.iterate
    ⟨iterate, m, s.v, u⟩
  else
    let v1 : Mat ι := fun j => P.beta2 * s.v j
    let v : Mat ι := fun j => v1 j + (1 - P.beta2) * (grad j * grad j)
    let iterate : Mat ι := fun j => s.iterate j -
      (P.stepSize * Real.sqrt (biasCorrection2 P.beta2 t) /
        biasCorrection1 P.beta1 t) * m j / (Real.sqrt (v j) + P.eps)
    ⟨iterate, m, v, s.u⟩

/-- The loop-control state alongside the numeric state: `currentFunction`,
`overallObjective`, `lastObjective`, and the number of `arma::shuffle`
calls made so far (which indexes the shuffle oracle). -/
structure LoopState (ι : Type) where
  st : AdamState ι
  currentFunction : ℕ
  overallObjective : D
  lastObjective : D
  shuffleCount : ℕ

/-- The term index used for this step: `visitationOrder[currentFunction]`
when shuffling, else `currentFunction` (lines 122-125). -/
def selIdx {ι : Type} (P : AdamParams) (orders : ℕ → ℕ → ℕ)
    (ls : LoopState ι) : ℕ :=
  if P.shuffle then orders ls.shuffleCount ls.currentFunction
  else ls.currentFunction

/-- The non-returning part of one loop iteration at global counter `i`
(lines 121-167): compute the gradient at the selected index, apply
`adamUpdate`, accumulate `Evaluate` at the freshly updated iterate and the
same index, and advance `currentFunction` (the `++currentFunction` of the
`for` header). -/
noncomputable def loopBody {ι : Type} (P : AdamParams) (F : Objective ι)
    (orders : ℕ → ℕ → ℕ) (i : ℕ) (ls : LoopState ι) : LoopState ι :=
  let idx := selIdx P orders ls
  let grad := F.gradient ls.st.iterate idx
  let st := adamUpdate P grad i ls.st
  { st := st
    currentFunction := ls.currentFunction + 1
    overallObjective := ls.overallObjective.add (F.evaluate st.iterate idx)
    lastObjective := ls.lastObjective
    shuffleCount := ls.shuffleCount }

/-- The epoch-boundary bookkeeping that runs when neither termination
branch fires (lines 112-118): record `lastObjective`, zero the aggregate,
reset `currentFunction`, and reshuffle when shuffling is on. -/
def boundaryReset {ι : Type} (P : AdamParams) (ls : LoopState ι) :
    LoopState ι :=
  { ls with
    lastObjective := ls.overallObjective
    overallObjective := D.fin 0
    currentFunction := 0
    shuffleCount := if P.shuffle then ls.shuffleCount + 1
      else ls.shuffleCount }

/-- `true` exactly when this iteration starts at an epoch boundary:
`(currentFunction % numFunctions) == 0` (line 91). -/
def atBoundary {ι : Type} (F : Objective ι) (ls : LoopState ι) : Bool :=
  ls.currentFunction % F.numFunctions == 0

/-- The divergence test at an epoch boundary:
`std::isnan(overallObjective) || std::isinf(overallObjective)` (line 97). -/
def divergedChk {ι : Type} (ls : LoopState ι) : Bool :=
  ls.overallObjective.isNan || ls.overallObjective.isInf

/-- The convergence test at an epoch boundary:
`std::abs(lastObjective - overallObjective) < tolerance` (line 105). -/
def toleranceChk {ι : Type} (P : AdamParams) (ls : LoopState ι) : Bool :=
  D.dlt (D.dabs (D.sub ls.lastObjective ls.overallObjective))
    (D.fin P.tolerance)

/-- `overallObjective = Σ_i Evaluate(iterate, i)` over all terms
(lines 64-65 and 173-175), accumulated left to right from `0`. -/
def sumEval {ι : Type} (F : Objective ι) (x : Mat ι) : D :=
  (List.range F.numFunctions).foldl
    (fun a i => a.add (F.evaluate x i)) (D.fin 0)

/-- The main loop (lines 88-177), `for (size_t i = 1; i != maxIterations;
++i, ++currentFunction)`, run with `fuel` iterations remaining (so `fuel =
maxIterations - i` throughout; `Optimize` starts it with
`maxIterations - 1` and `i = 1`).  Returns the returned objective value
together with the final state (the source returns the objective and leaves
the final iterate in the caller's matrix).  When fuel runs out the loop
exits and the objective is recomputed as the full sum at the final
iterate (lines 172-176). -/
noncomputable def optLoop {ι : Type} (P : AdamParams) (F : Objective ι)
    (orders : ℕ → ℕ → ℕ) : ℕ → ℕ → LoopState ι → D × LoopState ι
  | 0, _, ls => (sumEval F ls.st.iterate, ls)
  | fuel + 1, i, ls =>
    if atBoundary F ls then
      if divergedChk ls then (ls.overallObjective, ls)
      else if toleranceChk P ls then (ls.overallObjective, ls)
      else optLoop P F orders fuel (i + 1)
        (loopBody P F orders i (boundaryReset P ls))
    else optLoop P F orders fuel (i + 1) (loopBody P F orders i ls)

/-- The state at entry to the loop (lines 58-86): `currentFunction = 0`,
`overallObjective` the initial full sum, `lastObjective = DBL_MAX`, all
moment buffers zero, no shuffles consumed yet beyond the initial draw
(the initial `visitationOrder` is `orders 0`; the first epoch boundary
reshuffles before the order is ever used, exactly as in the source). -/
noncomputable def initLS {ι : Type} (F : Objective ι) (x0 : Mat ι) :
    LoopState ι :=
  { st := ⟨x0, fun _ => 0, fun _ => 0, fun _ => 0⟩
    currentFunction := 0
    overallObjective := sumEval F x0
    lastObjective := D.dblMax
    shuffleCount := 0 }

/-- `Adam::Optimize` (lines 47-177): run the loop from the initial state.
The source loop condition `i != maxIterations` with `i` starting at `1`
performs `maxIterations - 1` iterations for any `maxIterations ≥ 1`. -/
noncomputable def Optimize {ι : Type} (P : AdamParams) (F : Objective ι)
    (orders : ℕ → ℕ → ℕ) (x0 : Mat ι) : D × LoopState ι :=
  optLoop P F orders (P.maxIterations - 1) 1 (initLS F x0)

/-- One full loop iteration as a pure state transformer (boundary
bookkeeping, when it applies, followed by the body), used to describe the
run when no termination branch fires. -/
noncomputable def advanceStep {ι : Type} (P : AdamParams) (F : Objective ι)
    (orders : ℕ → ℕ → ℕ) (i : ℕ) (ls : LoopState ι) : LoopState ι :=
  if atBoundary F ls then loopBody P F orders i (boundaryReset P ls)
  else loopBody P F orders i ls

/-- `advance k i ls`: the state after `k` further loop iterations starting
from state `ls` at global counter `i`, assuming no termination branch
fires along the way. -/
noncomputable def advance {ι : Type} (P : AdamParams) (F : Objective ι)
    (orders : ℕ → ℕ → ℕ) : ℕ → ℕ → LoopState ι → LoopState ι
  | 0, _, ls => ls
  | k + 1, i, ls => advance P F orders k (i + 1) (advanceStep P F orders i ls)

/-- The state the body of iteration `i` actually acts on: the incoming
state, put through the boundary bookkeeping when this iteration starts an
epoch. -/
noncomputable def preBody {ι : Type} (P : AdamParams) (F : Objective ι)
    (ls : LoopState ι) : LoopState ι :=
  if atBoundary F ls then boundaryReset P ls else ls

/-! Concrete instances used to witness the theorems below. -/

/-- The all-zero matrix over a one-entry shape. -/
noncomputable def zeroMat : Mat Unit := fun _ => 0

/-- The all-one matrix over a one-entry shape. -/
noncomputable def oneMat : Mat Unit := fun _ => 1

/-- An all-zero optimizer state. -/
noncomputable def stateZ : AdamState Unit := ⟨zeroMat, zeroMat, zeroMat, zeroMat⟩

/-- A state whose inf-norm buffer `u` is the all-one matrix. -/
noncomputable def stateU1 : AdamState Unit := ⟨zeroMat, zeroMat, zeroMat, oneMat⟩

/-- Concrete Adam-mode hyperparameters: `stepSize 1, beta1 0, beta2 0,
eps 1, maxIterations 2, tolerance 0, shuffle off, adaMax off`. -/
noncomputable def adamP : AdamParams := ⟨1, 0, 0, 1, 2, 0, false, false⟩

/-- Concrete AdaMax-mode hyperparameters: `stepSize 1, beta1 1, beta2 1/2,
eps 1, maxIterations 2, tolerance 0, shuffle off, adaMax on`. -/
noncomputable def adaMaxP : AdamParams := ⟨1, 1, 1 / 2, 1, 2, 0, false, true⟩

/-- A one-term objective that always evaluates to `0` with zero
gradients. -/
noncomputable def objZero : Objective Unit := ⟨1, fun _ _ => D.fin 0, fun _ _ => zeroMat⟩

/-- A two-term objective that always evaluates to `0` with zero
gradients. -/
noncomputable def objTwo : Objective Unit := ⟨2, fun _ _ => D.fin 0, fun _ _ => zeroMat⟩

/-- A five-term objective that always evaluates to `0` with zero
gradients. -/
noncomputable def objFive : Objective Unit := ⟨5, fun _ _ => D.fin 0, fun _ _ => zeroMat⟩

/-- A shuffle oracle whose every draw is the identity order. -/
def ordId : ℕ → ℕ → ℕ := fun _ j => j

/-- Adam-mode hyperparameters with a strictly positive tolerance `1`. -/
noncomputable def adamPtol : AdamParams := ⟨1, 0, 0, 1, 2, 1, false, false⟩

/-- A loop state sitting at an epoch boundary with a NaN aggregate. -/
noncomputable def lsNan : LoopState Unit := ⟨stateZ, 0, D.nan, D.dblMax, 0⟩

/-- A mid-epoch loop state (`currentFunction = 1`, two terms) with a NaN
aggregate. -/
noncomputable def lsMid : LoopState Unit := ⟨stateZ, 1, D.nan, D.dblMax, 0⟩

/-- A loop state at an epoch boundary whose aggregate `0` matches the
previous epoch's objective `0` exactly. -/
noncomputable def lsConv : LoopState Unit := ⟨stateZ, 0, D.fin 0, D.fin 0, 0⟩

/-- C1: in Adam mode, one update step at global counter `t ≥ 1` sends `m`
to `beta1·m + (1−beta1)·gradient`, `v` to
`beta2·v + (1−beta2)·gradient²`, and the iterate to
`iterate − (stepSize·sqrt(1−beta2^t)/(1−beta1^t)) · m / (sqrt v + eps)`
entrywise, where `m`, `v` are the freshly updated buffers and the
exponent is the global counter. -/
theorem c1_adam_step_formula {ι : Type} (P : AdamParams) (grad : Mat ι)
    (t : ℕ) (s : AdamState ι) (hmode : P.adaMax = false) (_ht : 1 ≤ t) :
    (adamUpdate P grad t s).m
        = (fun j => P.beta1 * s.m j + (1 - P.beta1) * grad j) ∧
    (adamUpdate P grad t s).v
        = (fun j => P.beta2 * s.v j + (1 - P.beta2) * (grad j * grad j)) ∧
    (adamUpdate P grad t s).iterate
        = fun j => s.iterate j -
            (P.stepSize * Real.sqrt (1 - P.beta2 ^ t) / (1 - P.beta1 ^ t)) *
              (adamUpdate P grad t s).m j /
                (Real.sqrt ((adamUpdate P grad t s).v j) + P.eps) := by
  simp [adamUpdate, hmode, biasCorrection1, biasCorrection2]

/-- Witness for C1 at the concrete Adam-mode parameters, zero gradient,
zero state and `t = 1`. -/
theorem c1_adam_step_formula_witness :
    (adamUpdate adamP zeroMat 1 stateZ).m
        = (fun j => adamP.beta1 * stateZ.m j + (1 - adamP.beta1) * zeroMat j) ∧
    (adamUpdate adamP zeroMat 1 stateZ).v
        = (fun j => adamP.beta2 * stateZ.v j +
            (1 - adamP.beta2) * (zeroMat j * zeroMat j)) ∧
    (adamUpdate adamP zeroMat 1 stateZ).iterate
        = fun j => stateZ.iterate j -
            (adamP.stepSize * Real.sqrt (1 - adamP.beta2 ^ 1) /
                (1 - adamP.beta1 ^ 1)) *
              (adamUpdate adamP zeroMat 1 stateZ).m j /
                (Real.sqrt ((adamUpdate adamP zeroMat 1 stateZ).v j) +
                  adamP.eps) :=
  c1_adam_step_formula adamP zeroMat 1 stateZ rfl (le_refl 1)

/-- C2: in AdaMax mode, when `1 − beta1^t ≠ 0` the iterate moves to
`iterate − (stepSize/(1−beta1^t)) · m / (u + eps)` entrywise with the
freshly updated `m` and `u`; when `1 − beta1^t = 0` the iterate is left
entirely unchanged for that step. -/
theorem c2_adamax_guard {ι : Type} (P : AdamParams) (grad : Mat ι)
    (t : ℕ) (s : AdamState ι) (hmode : P.adaMax = true) :
    (biasCorrection1 P.beta1 t ≠ 0 →
      (adamUpdate P grad t s).iterate = fun j =>
        s.iterate j - P.stepSize / (1 - P.beta1 ^ t) *
          (adamUpdate P grad t s).m j /
            ((adamUpdate P grad t s).u j + P.eps)) ∧
    (biasCorrection1 P.beta1 t = 0 →
      (adamUpdate P grad t s).iterate = s.iterate) := by
  constructor
  · intro h
    simp only [adamUpdate, hmode, if_true, biasCorrection1] at h ⊢
    rw [if_pos h]
  · intro h
    simp only [adamUpdate, hmode, if_true, biasCorrection1] at h ⊢
    rw [if_neg (by simpa using h)]

/-- Witness for C2 at the concrete AdaMax-mode parameters with
`beta1 = 1`, where `1 − beta1^1 = 0` and the iterate is untouched. -/
theorem c2_adamax_guard_witness :
    (adamUpdate adaMaxP zeroMat 1 stateU1).iterate = stateU1.iterate :=
  (c2_adamax_guard adaMaxP zeroMat 1 stateU1 rfl).2 (by norm_num [adaMaxP, biasCorrection1])

/-- C3 counterexample: starting from the zero-initialized state with
`beta2 = 1/2`, a gradient of `1` at step 1 gives `u = 1`, and a zero
gradient at step 2 gives `u = max(1/2, 0) = 1/2 < 1`: the entry of `u`
strictly decreases, so `u` is not entrywise non-decreasing under the max
update. -/
theorem c3_u_decreases :
    ¬ ((adamUpdate adaMaxP oneMat 1 stateZ).u () ≤
        (adamUpdate adaMaxP zeroMat 2 (adamUpdate adaMaxP oneMat 1 stateZ)).u ()) := by
  simp only [adamUpdate, adaMaxP, stateZ, oneMat, zeroMat, if_true]
  norm_num

/-- C3 (amended): in AdaMax mode `u` starts at zero and stays entrywise
non-negative after every step; each entry after the update
`u = max(beta2·u, |gradient|)` is at least `beta2` times the entry before
and at least the gradient magnitude there (but it can be strictly below
the previous entry when `beta2 < 1`). -/
theorem c3_u_bounds {ι : Type} (P : AdamParams) (grad : Mat ι) (t : ℕ)
    (s : AdamState ι) (F : Objective ι) (x0 : Mat ι)
    (hmode : P.adaMax = true) (j : ι) :
    (initLS F x0).st.u j = 0 ∧
    0 ≤ (adamUpdate P grad t s).u j ∧
    P.beta2 * s.u j ≤ (adamUpdate P grad t s).u j ∧
    |grad j| ≤ (adamUpdate P grad t s).u j := by
  refine ⟨rfl, ?_, ?_, ?_⟩ <;> simp only [adamUpdate, hmode, if_true]
  · exact (abs_nonneg _).trans (le_max_right _ _)
  · exact le_max_left _ _
  · exact le_max_right _ _

/-- Witness for C3's amended statement at the concrete AdaMax-mode
parameters, zero gradient and `u = 1`. -/
theorem c3_u_bounds_witness :
    (initLS objZero zeroMat).st.u () = 0 ∧
    0 ≤ (adamUpdate adaMaxP zeroMat 1 stateU1).u () ∧
    adaMaxP.beta2 * stateU1.u () ≤ (adamUpdate adaMaxP zeroMat 1 stateU1).u () ∧
    |zeroMat ()| ≤ (adamUpdate adaMaxP zeroMat 1 stateU1).u () :=
  c3_u_bounds adaMaxP zeroMat 1 stateU1 objZero zeroMat rfl ()

/-- C8: in Adam mode with `beta2 ∈ [0,1)`, the second-moment buffer `v`
starts at zero and each update step
`v = beta2·v + (1−beta2)·gradient²` preserves entrywise
non-negativity. -/
theorem c8_v_nonneg {ι : Type} (P : AdamParams) (grad : Mat ι) (t : ℕ)
    (s : AdamState ι) (F : Objective ι) (x0 : Mat ι)
    (hmode : P.adaMax = false) (h0 : 0 ≤ P.beta2) (h1 : P.beta2 < 1)
    (hv : ∀ j, 0 ≤ s.v j) :
    (∀ j, (initLS F x0).st.v j = 0) ∧
    ∀ j, 0 ≤ (adamUpdate P grad t s).v j := by
  refine ⟨fun j => rfl, fun j => ?_⟩
  simp only [adamUpdate, hmode, Bool.false_eq_true, if_false]
  exact add_nonneg (mul_nonneg h0 (hv j))
    (mul_nonneg (by linarith) (mul_self_nonneg _))

/-- Witness for C8 at the concrete Adam-mode parameters (`beta2 = 0`) and
the all-zero state. -/
theorem c8_v_nonneg_witness :
    (∀ j, (initLS objZero zeroMat).st.v j = 0) ∧
    ∀ j, 0 ≤ (adamUpdate adamP zeroMat 1 stateZ).v j :=
  c8_v_nonneg adamP zeroMat 1 stateZ objZero zeroMat rfl (le_refl 0)
    (by norm_num [adamP]) (fun _ => le_refl 0)

/-- C9: with `beta1 ∈ [0,1)` the Adam-branch divisor
`biasCorrection1 = 1 − beta1^t` is strictly positive (hence nonzero) for
every global counter `t ≥ 1`, so the unguarded division in the Adam
branch never divides by zero. -/
theorem c9_biasCorrection1_pos (beta1 : ℝ) (t : ℕ) (h0 : 0 ≤ beta1)
    (h1 : beta1 < 1) (ht : 1 ≤ t) :
    0 < biasCorrection1 beta1 t ∧ biasCorrection1 beta1 t ≠ 0 := by
  have hp : beta1 ^ t < 1 := pow_lt_one₀ h0 h1 (by omega)
  have hpos : 0 < biasCorrection1 beta1 t := by
    simp only [biasCorrection1]
    linarith
  exact ⟨hpos, ne_of_gt hpos⟩

/-- Witness for C9 at `beta1 = 0`, `t = 1`. -/
theorem c9_biasCorrection1_pos_witness :
    0 < biasCorrection1 (0 : ℝ) 1 ∧ biasCorrection1 (0 : ℝ) 1 ≠ 0 :=
  c9_biasCorrection1_pos 0 1 (le_refl 0) zero_lt_one (le_refl 1)

/-- C4: at an epoch boundary with a NaN or infinite aggregate and loop
iterations remaining, the loop returns the aggregate at once with the
state (so the iterate) untouched, without consulting the tolerance test;
away from a boundary no check runs and the iteration proceeds into the
body, so a non-finite aggregate arising mid-epoch only returns at the
next boundary. -/
theorem c4_divergence_return {ι : Type} (P : AdamParams) (F : Objective ι)
    (orders : ℕ → ℕ → ℕ) (fuel i : ℕ) (ls : LoopState ι)
    (fuel2 i2 : ℕ) (ls2 : LoopState ι)
    (hb : atBoundary F ls = true) (hd : divergedChk ls = true)
    (hnb : atBoundary F ls2 = false) :
    optLoop P F orders (fuel + 1) i ls = (ls.overallObjective, ls) ∧
    optLoop P F orders (fuel2 + 1) i2 ls2 =
      optLoop P F orders fuel2 (i2 + 1) (loopBody P F orders i2 ls2) := by
  constructor
  · simp [optLoop, hb, hd]
  · simp [optLoop, hnb]

/-- Witness for C4 at a boundary state with NaN aggregate and a mid-epoch
state with NaN aggregate, over the two-term zero objective. -/
theorem c4_divergence_return_witness :
    optLoop adamP objTwo ordId (0 + 1) 1 lsNan = (lsNan.overallObjective, lsNan) ∧
    optLoop adamP objTwo ordId (0 + 1) 1 lsMid =
      optLoop adamP objTwo ordId 0 (1 + 1) (loopBody adamP objTwo ordId 1 lsMid) :=
  c4_divergence_return adamP objTwo ordId 0 1 lsNan 0 1 lsMid rfl rfl rfl

/-- C5: at an epoch boundary with a finite aggregate, if
`|lastObjective − overallObjective| < tolerance` the loop returns the
running aggregate at once with the state untouched; and each body step
accumulates into the aggregate exactly `Evaluate` of the iterate as it
stands after that step's update, at the step's selected index. -/
theorem c5_tolerance_return {ι : Type} (P : AdamParams) (F : Objective ι)
    (orders : ℕ → ℕ → ℕ) (fuel i : ℕ) (ls : LoopState ι)
    (i2 : ℕ) (ls2 : LoopState ι)
    (hb : atBoundary F ls = true) (hd : divergedChk ls = false)
    (ht : toleranceChk P ls = true) :
    optLoop P F orders (fuel + 1) i ls = (ls.overallObjective, ls) ∧
    (loopBody P F orders i2 ls2).overallObjective =
      ls2.overallObjective.add
        (F.evaluate (loopBody P F orders i2 ls2).st.iterate
          (selIdx P orders ls2)) := by
  constructor
  · simp [optLoop, hb, hd, ht]
  · rfl

/-- Witness for C5 at a boundary state whose aggregate `0` equals the
previous epoch objective, with tolerance `1`. -/
theorem c5_tolerance_return_witness :
    optLoop adamPtol objZero ordId (0 + 1) 1 lsConv = (lsConv.overallObjective, lsConv) ∧
    (loopBody adamPtol objZero ordId 1 lsConv).overallObjective =
      lsConv.overallObjective.add
        (objZero.evaluate (loopBody adamPtol objZero ordId 1 lsConv).st.iterate
          (selIdx adamPtol ordId lsConv)) :=
  c5_tolerance_return adamPtol objZero ordId 0 1 lsConv 1 lsConv rfl rfl
    (by norm_num [toleranceChk, lsConv, adamPtol, D.sub, D.dabs, D.dlt])

/-- C10: `lastObjective` starts at `DBL_MAX`, so at the very first epoch
boundary, for a finite initial aggregate `a` and any tolerance at most
`DBL_MAX − a`, the tolerance test is false and the run proceeds past the
first boundary into the first epoch's body instead of returning. -/
theorem c10_no_first_convergence {ι : Type} (P : AdamParams)
    (F : Objective ι) (orders : ℕ → ℕ → ℕ) (x0 : Mat ι) (a : ℚ) (fuel : ℕ)
    (hfin : sumEval F x0 = D.fin a)
    (htol : P.tolerance ≤ (2 ^ 53 - 1) * 2 ^ 971 - a)
    (hmax : P.maxIterations - 1 = fuel + 1) :
    toleranceChk P (initLS F x0) = false ∧
    Optimize P F orders x0 =
      optLoop P F orders fuel 2
        (loopBody P F orders 1 (boundaryReset P (initLS F x0))) := by
  have hnot : ¬ (|((2 ^ 53 - 1) * 2 ^ 971 : ℚ) - a| < P.tolerance) :=
    not_lt.mpr (le_trans htol (le_abs_self _))
  have htc : toleranceChk P (initLS F x0) = false := by
    have h1 : toleranceChk P (initLS F x0)
        = D.dlt (D.dabs (D.sub D.dblMax (D.fin a))) (D.fin P.tolerance) := by
      simp [toleranceChk, initLS, hfin]
    rw [h1]
    show decide (|((2 ^ 53 - 1) * 2 ^ 971 : ℚ) - a| < P.tolerance) = false
    exact decide_eq_false hnot
  have hdb : divergedChk (initLS F x0) = false := by
    simp [divergedChk, initLS, hfin, D.isNan, D.isInf]
  have hbd : atBoundary F (initLS F x0) = true := by
    simp [atBoundary, initLS]
  refine ⟨htc, ?_⟩
  show optLoop P F orders (P.maxIterations - 1) 1 (initLS F x0) = _
  rw [hmax]
  simp [optLoop, hbd, hdb, htc]

/-- Witness for C10 at the one-term zero objective (initial aggregate
`0`) with tolerance `0` and `maxIterations = 2`. -/
theorem c10_no_first_convergence_witness :
    toleranceChk adamP (initLS objZero zeroMat) = false ∧
    Optimize adamP objZero ordId zeroMat =
      optLoop adamP objZero ordId 0 2
        (loopBody adamP objZero ordId 1 (boundaryReset adamP (initLS objZero zeroMat))) :=
  c10_no_first_convergence adamP objZero ordId zeroMat 0 0
    (by norm_num [sumEval, objZero, List.range_succ, D.add]) (by norm_num [adamP]) rfl

/-- One loop iteration is the body applied to the `preBody` state. -/
theorem advanceStep_eq {ι : Type} (P : AdamParams) (F : Objective ι)
    (orders : ℕ → ℕ → ℕ) (i : ℕ) (ls : LoopState ι) :
    advanceStep P F orders i ls = loopBody P F orders i (preBody P F ls) := by
  by_cases h : atBoundary F ls = true <;> simp [advanceStep, preBody, h]

/-- Peeling the last iteration off `advance`. -/
theorem advance_succ_last {ι : Type} (P : AdamParams) (F : Objective ι)
    (orders : ℕ → ℕ → ℕ) :
    ∀ (k i : ℕ) (ls : LoopState ι),
      advance P F orders (k + 1) i ls =
        advanceStep P F orders (i + k) (advance P F orders k i ls) := by
  intro k
  induction k with
  | zero => intro i ls; rfl
  | succ k ih =>
    intro i ls
    show advance P F orders (k + 1) (i + 1) (advanceStep P F orders i ls) = _
    rw [ih]
    have hn : i + 1 + k = i + (k + 1) := by omega
    rw [hn]
    rfl

/-- Along the run from the initial state, the `currentFunction` seen by
the body of the `k`-th iteration (after the epoch-boundary reset when one
happens) is `k % numFunctions`. -/
theorem preBody_currentFunction {ι : Type} (P : AdamParams)
    (F : Objective ι) (orders : ℕ → ℕ → ℕ) (x0 : Mat ι)
    (hN : 1 ≤ F.numFunctions) :
    ∀ k, (preBody P F (advance P F orders k 1 (initLS F x0))).currentFunction
      = k % F.numFunctions := by
  intro k
  induction k with
  | zero =>
    show (preBody P F (initLS F x0)).currentFunction = 0 % F.numFunctions
    simp [preBody, atBoundary, initLS, boundaryReset]
  | succ k ih =>
    have hstep : advance P F orders (k + 1) 1 (initLS F x0)
        = loopBody P F orders (1 + k)
            (preBody P F (advance P F orders k 1 (initLS F x0))) := by
      rw [advance_succ_last, advanceStep_eq]
    have hcf : (advance P F orders (k + 1) 1 (initLS F x0)).currentFunction
        = k % F.numFunctions + 1 := by
      rw [hstep]
      show (preBody P F (advance P F orders k 1 (initLS F x0))).currentFunction + 1 = _
      rw [ih]
    have hlt : k % F.numFunctions < F.numFunctions := Nat.mod_lt _ (by omega)
    by_cases hE : k % F.numFunctions + 1 = F.numFunctions
    · have hb : atBoundary F (advance P F orders (k + 1) 1 (initLS F x0)) = true := by
        simp [atBoundary, hcf, hE]
      have hz : (k + 1) % F.numFunctions = 0 := by
        rw [← Nat.mod_add_mod, hE, Nat.mod_self]
      simp [preBody, hb, boundaryReset, hz]
    · have h2 : k % F.numFunctions + 1 < F.numFunctions :=
        lt_of_le_of_ne hlt hE
      have hmod : (k % F.numFunctions + 1) % F.numFunctions
          = k % F.numFunctions + 1 := Nat.mod_eq_of_lt h2
      have hb : atBoundary F (advance P F orders (k + 1) 1 (initLS F x0)) = false := by
        simp [atBoundary, hcf, hmod]
      have hs : (k + 1) % F.numFunctions = k % F.numFunctions + 1 := by
        rw [← Nat.mod_add_mod]; exact hmod
      simp [preBody, hb, hcf, hs]

/-- C7: with shuffling disabled and at least one term, the index the
`k`-th update step (counting from zero) computes its gradient at—and
takes its post-update evaluation at—is exactly `k % numFunctions`, so
the visitation order is `0, 1, …, numFunctions − 1` repeated every epoch
with nothing skipped, repeated, or reordered. -/
theorem c7_sequential_order {ι : Type} (P : AdamParams) (F : Objective ι)
    (orders : ℕ → ℕ → ℕ) (x0 : Mat ι) (hsh : P.shuffle = false)
    (hN : 1 ≤ F.numFunctions) (k : ℕ) :
    selIdx P orders (preBody P F (advance P F orders k 1 (initLS F x0)))
      = k % F.numFunctions := by
  rw [selIdx, if_neg (by simp [hsh])]
  exact preBody_currentFunction P F orders x0 hN k

/-- Witness for C7: with five terms and no shuffling, the eighth step
(`k = 7`) works on term `7 % 5 = 2`. -/
theorem c7_sequential_order_witness :
    selIdx adamP ordId
      (preBody adamP objFive (advance adamP objFive ordId 7 1 (initLS objFive zeroMat)))
      = 2 :=
  c7_sequential_order adamP objFive ordId zeroMat rfl (by decide) 7

/-- When no epoch-boundary check fires in the next `fuel` iterations, the
loop performs exactly `fuel` body steps and returns the aggregate
recomputed over all terms at the final iterate. -/
theorem optLoop_run {ι : Type} (P : AdamParams) (F : Objective ι)
    (orders : ℕ → ℕ → ℕ) :
    ∀ (fuel i : ℕ) (ls : LoopState ι),
      (∀ k, k < fuel →
        atBoundary F (advance P F orders k i ls) = true →
        divergedChk (advance P F orders k i ls) = false ∧
        toleranceChk P (advance P F orders k i ls) = false) →
      optLoop P F orders fuel i ls =
        (sumEval F (advance P F orders fuel i ls).st.iterate,
          advance P F orders fuel i ls) := by
  intro fuel
  induction fuel with
  | zero => intro i ls _; rfl
  | succ fuel ih =>
    intro i ls H
    by_cases hb : atBoundary F ls = true
    · obtain ⟨hd0, ht0⟩ := H 0 (Nat.succ_pos fuel) hb
      have hd : divergedChk ls = false := hd0
      have ht : toleranceChk P ls = false := ht0
      have hstep : advanceStep P F orders i ls
          = loopBody P F orders i (boundaryReset P ls) := by
        simp [advanceStep, hb]
      have hadv : ∀ m : ℕ, advance P F orders (m + 1) i ls
          = advance P F orders m (i + 1)
              (loopBody P F orders i (boundaryReset P ls)) := by
        intro m
        show advance P F orders m (i + 1) (advanceStep P F orders i ls) = _
        rw [hstep]
      have hH : ∀ k, k < fuel →
          atBoundary F (advance P F orders k (i + 1)
            (loopBody P F orders i (boundaryReset P ls))) = true →
          divergedChk (advance P F orders k (i + 1)
            (loopBody P F orders i (boundaryReset P ls))) = false ∧
          toleranceChk P (advance P F orders k (i + 1)
            (loopBody P F orders i (boundaryReset P ls))) = false := by
        intro k hk
        have hx := H (k + 1) (by omega)
        rwa [hadv k] at hx
      calc optLoop P F orders (fuel + 1) i ls
          = optLoop P F orders fuel (i + 1)
              (loopBody P F orders i (boundaryReset P ls)) := by
            simp only [optLoop, hb, hd, ht]
            simp
        _ = (sumEval F (advance P F orders fuel (i + 1)
                (loopBody P F orders i (boundaryReset P ls))).st.iterate,
              advance P F orders fuel (i + 1)
                (loopBody P F orders i (boundaryReset P ls))) :=
            ih (i + 1) _ hH
        _ = (sumEval F (advance P F orders (fuel + 1) i ls).st.iterate,
              advance P F orders (fuel + 1) i ls) := by
            rw [hadv fuel]
    · have hstep : advanceStep P F orders i ls = loopBody P F orders i ls := by
        simp [advanceStep, hb]
      have hadv : ∀ m : ℕ, advance P F orders (m + 1) i ls
          = advance P F orders m (i + 1) (loopBody P F orders i ls) := by
        intro m
        show advance P F orders m (i + 1) (advanceStep P F orders i ls) = _
        rw [hstep]
      have hH : ∀ k, k < fuel →
          atBoundary F (advance P F orders k (i + 1)
            (loopBody P F orders i ls)) = true →
          divergedChk (advance P F orders k (i + 1)
            (loopBody P F orders i ls)) = false ∧
          toleranceChk P (advance P F orders k (i + 1)
            (loopBody P F orders i ls)) = false := by
        intro k hk
        have hx := H (k + 1) (by omega)
        rwa [hadv k] at hx
      calc optLoop P F orders (fuel + 1) i ls
          = optLoop P F orders fuel (i + 1) (loopBody P F orders i ls) := by
            simp only [optLoop]
            rw [if_neg hb]
        _ = (sumEval F (advance P F orders fuel (i + 1)
                (loopBody P F orders i ls)).st.iterate,
              advance P F orders fuel (i + 1) (loopBody P F orders i ls)) :=
            ih (i + 1) _ hH
        _ = (sumEval F (advance P F orders (fuel + 1) i ls).st.iterate,
              advance P F orders (fuel + 1) i ls) := by
            rw [hadv fuel]

/-- C6: for `maxIterations ≥ 1`, if neither the divergence branch nor the
convergence branch fires at any epoch boundary along the run, `Optimize`
terminates after exactly `maxIterations − 1` update steps and returns the
aggregate objective freshly recomputed as the sum of all terms at the
single final iterate. -/
theorem c6_exhaustion {ι : Type} (P : AdamParams) (F : Objective ι)
    (orders : ℕ → ℕ → ℕ) (x0 : Mat ι) (_hmax : 1 ≤ P.maxIterations)
    (H : ∀ k, k < P.maxIterations - 1 →
      atBoundary F (advance P F orders k 1 (initLS F x0)) = true →
      divergedChk (advance P F orders k 1 (initLS F x0)) = false ∧
      toleranceChk P (advance P F orders k 1 (initLS F x0)) = false) :
    Optimize P F orders x0 =
      (sumEval F (advance P F orders (P.maxIterations - 1) 1
          (initLS F x0)).st.iterate,
        advance P F orders (P.maxIterations - 1) 1 (initLS F x0)) :=
  optLoop_run P F orders (P.maxIterations - 1) 1 (initLS F x0) H

/-- Witness for C6: the one-term zero objective with `maxIterations = 2`
and tolerance `0` never fires a termination branch, so the run exhausts
its single update step. -/
theorem c6_exhaustion_witness :
    Optimize adamP objZero ordId zeroMat =
      (sumEval objZero (advance adamP objZero ordId (adamP.maxIterations - 1) 1
          (initLS objZero zeroMat)).st.iterate,
        advance adamP objZero ordId (adamP.maxIterations - 1) 1
          (initLS objZero zeroMat)) :=
  c6_exhaustion adamP objZero ordId zeroMat (by decide)
    (by
      intro k hk hbd
      have hm : adamP.maxIterations = 2 := rfl
      rw [hm] at hk
      have hk0 : k = 0 := by omega
      subst hk0
      refine ⟨rfl, ?_⟩
      show toleranceChk adamP (initLS objZero zeroMat) = false
      norm_num [toleranceChk, initLS, sumEval, objZero, List.range_succ,
        D.add, D.sub, D.dabs, D.dlt, D.dblMax, adamP])

end MlpackAdam
